import Mathlib

/-!
Shallow embedding of the error-recovery core of the sila2-feature-lib repository
(`src/sila2_feature_lib/error_recovery/v001_0/error_recovery.py` and `feature_ul.py`).

Modelling conventions:
* Time stamps and timeouts are `Int` seconds (the Python code uses float seconds;
  all properties of interest are about integral values and sign/comparison tests).
* Python exceptions escaping an operation are modelled with `Except PyErr`.
* The asyncio `Event` held by an `ErrorEntry` is modelled by the Boolean field
  `resolution_available` (its `is_set` state); manager listeners are modelled by a
  per-listener counter of `set()` invocations (field `wakes` of `St`).
* `ErrorEntry` objects are mutable and aliased (the manager registry stores
  references), so manager-level operations work over a small heap: `St.heap`
  associates an object id to the entry record and `St.errors` is the manager's
  `_errors` list of object ids.  Two distinct entry objects are never equal under
  Python dataclass equality (each holds a distinct `Event`), so `list.remove`
  removes exactly the first occurrence of the given object id.
* `mark_resolved`, `clear_errors` and the loop inside `clear_errors` are mutually
  recursive in the source (via `ErrorEntry.clear`); they are defined below by
  structural recursion on an explicit fuel parameter, with exhaustion reported as
  the artificial error `PyErr.outOfFuel`.  Every theorem below about these
  functions either quantifies over sufficient fuel or fixes a concrete fuel on a
  concrete input, so no result depends on fuel exhaustion.
* Python's `datetime.now` is modelled by a `now : Int` parameter threaded into
  the operations that read the clock.
-/

/-- Hints for the continuation action (`ContinuationActionHint` enum in the source). -/
inductive ContinuationActionHint where
  | Nothing
  | Continue
  | RaiseError
  | Retry
deriving DecidableEq, Repr

/-- The `Continuation` dataclass: one named recovery option. -/
structure Continuation where
  description : String
  identifier : String
  required_input_data : String := ""
  config : ContinuationActionHint := ContinuationActionHint.Nothing
  auto_raise : Bool := false
deriving DecidableEq, Repr

instance : Inhabited Continuation := ⟨{ description := "", identifier := "" }⟩

/-- The `Resolution` dataclass: input data supplied by the resolving party. -/
structure Resolution where
  input_data : Option String := none
deriving DecidableEq, Repr

/-- `Resolution.empty()` factory. -/
def Resolution.empty : Resolution := { input_data := none }

/-- The module-level constant `CONTINUATION_CANCELLED = Continuation("Cancelled", auto_raise=True)`.
Its `identifier` is a fresh uuid4 in the source; it is modelled by a fixed token that no
test datum below reuses. -/
def CONTINUATION_CANCELLED : Continuation :=
  { description := "Cancelled", identifier := "uuid-continuation-cancelled", auto_raise := true }

/-- A dynamically typed Python value that is either a `Continuation` or a `Resolution`.
Needed because `feature_ul.py` passes a `Resolution` where `post_resolution` expects its
`continuation` parameter.  Python dataclass equality across the two classes is always
`False` (`__eq__` returns `NotImplemented` for a different class), which is exactly
derived equality on this sum type. -/
inductive PyVal where
  | cont (c : Continuation)
  | res (r : Resolution)
deriving DecidableEq, Repr

/-- Python exceptions that the embedded operations can raise. -/
inductive PyErr where
  | valueError (msg : String)
  | typeError
  | attributeError
  | runtimeError (msg : String)
  | invalidCommandExecutionUUID (msg : String)
  | unknownContinuationOption (msg : String)
  | exceptionOther (msg : String)
  | outOfFuel
deriving DecidableEq, Repr

/-- An `ErrorRecovery` scope object after `__init__`: its (name-mangled) instance
attributes.  The manager reference `_ErrorRecovery__manager` is the global singleton
and carries no per-scope data, so only its presence in the attribute table matters. -/
structure ErrorRecovery where
  auto_resolve : Bool
  id : String
  cmd_identifier : String
  cmdexecution_uuid : String
deriving DecidableEq, Repr

/-- The attribute names present on an `ErrorRecovery` instance after `__init__`.
Python mangles the double-underscore names written inside `class ErrorRecovery`
to `_ErrorRecovery__...`. -/
def ErrorRecovery.attrNames : List String :=
  ["_ErrorRecovery__auto_resolve", "_ErrorRecovery__id", "_ErrorRecovery__cmd_identifier",
   "_ErrorRecovery__cmdexecution_uuid", "_ErrorRecovery__manager"]

/-- Attribute lookup on an `ErrorRecovery` instance: does the instance have the
attribute of the given (already mangled) name? -/
def ErrorRecovery.hasAttr (name : String) : Bool :=
  ErrorRecovery.attrNames.contains name

/-- Python `==` between an `ErrorRecovery` instance and a `str` (used by the predicate in
`ErrorRecovery.close`): `ErrorRecovery` defines no `__eq__`, so comparison with a value
of a different type is always `False`. -/
def pyEqScopeStr (_scope : ErrorRecovery) (_s : String) : Bool := false

/-- The `ErrorEntry` dataclass.  `error` is the opaque identity of the original
exception object; `resolution_available` is the `is_set` state of the entry's
`Event`.  `selected_continuation` and `resolution` hold dynamically typed values
(`PyVal`), since the source can store either class in them. -/
structure ErrorEntry where
  error_identifier : String
  command_identifier : String
  command_execution_uuid : String
  error_time : Int
  error_message : String
  error : Nat
  continuation_options : List Continuation
  default_option : Continuation
  automation_selection_timeout : Int
  creator_instance : ErrorRecovery
  selected_continuation : Option PyVal := none
  resolution : Option PyVal := none
  resolution_available : Bool := false
  _is_resolved : Bool := false
deriving DecidableEq, Repr

instance : Inhabited ErrorEntry :=
  ⟨{ error_identifier := "", command_identifier := "", command_execution_uuid := "",
     error_time := 0, error_message := "", error := 0, continuation_options := [],
     default_option := default, automation_selection_timeout := 0,
     creator_instance := { auto_resolve := false, id := "", cmd_identifier := "",
                           cmdexecution_uuid := "" } }⟩

/-- The record built by the final `return ErrorEntry(...)` of `ErrorEntry.create`,
once the timeout value has been computed. -/
def ErrorEntry.build (exId : Nat) (exClass exMsg : String) (err : ErrorRecovery)
    (continuation_options : List Continuation) (default_option : Continuation)
    (timeout : Int) (now : Int) : ErrorEntry :=
  { error_identifier := exClass
    command_identifier := err.cmd_identifier
    command_execution_uuid := err.cmdexecution_uuid
    error_time := now
    error_message := exMsg
    error := exId
    continuation_options := continuation_options
    default_option := default_option
    automation_selection_timeout := timeout
    creator_instance := err }

/-- `ErrorEntry.create` (error_recovery.py lines 458-498).  When
`automation_selection_timeout` is `None` the source evaluates
`err.__manager.get_default_timeout()`.  That attribute access is written inside
`class ErrorEntry`, so Python mangles it to `err._ErrorEntry__manager`; an
`ErrorRecovery` instance only has `_ErrorRecovery__manager` (see
`ErrorRecovery.attrNames`), so the access raises `AttributeError`.
`managerDefaultTimeout` is the value `get_default_timeout()` would return if the
attribute existed (the callback installed via `register_get_timeout_callback`). -/
def ErrorEntry.create (exId : Nat) (exClass exMsg : String) (err : ErrorRecovery)
    (continuation_options : List Continuation) (default_option : Continuation)
    (automation_selection_timeout : Option Int) (now : Int)
    (managerDefaultTimeout : Int) : Except PyErr ErrorEntry :=
  match automation_selection_timeout with
  | none =>
      if ErrorRecovery.hasAttr "_ErrorEntry__manager" then
        Except.ok (ErrorEntry.build exId exClass exMsg err continuation_options
          default_option managerDefaultTimeout now)
      else
        Except.error PyErr.attributeError
  | some t =>
      Except.ok (ErrorEntry.build exId exClass exMsg err continuation_options
        default_option t now)

/-- `ErrorEntry.post_resolution` (lines 549-571) called with arguments of the declared
types, as done by `mark_resolved` and `is_resolution_available`.  Raises `ValueError`
when the continuation is neither in the catalog nor the CANCELLED sentinel; otherwise
records the selection and sets the resolution-available event. -/
def ErrorEntry.post_resolution (e : ErrorEntry) (resolution : Resolution)
    (continuation : Continuation) : Except PyErr ErrorEntry :=
  if continuation ∉ e.continuation_options ∧ continuation ≠ CONTINUATION_CANCELLED then
    Except.error (PyErr.valueError
      ("Continuation " ++ continuation.identifier ++ " not found in continuation options."))
  else
    Except.ok { e with
      selected_continuation := some (PyVal.cont continuation)
      resolution := some (PyVal.res resolution)
      resolution_available := true }

/-- The body of `ErrorEntry.post_resolution` as executed by the call at
feature_ul.py line 76, `my_error.post_resolution(continuation, Resolution(InputData))`:
the parameter `resolution` is bound to a `Continuation` value and the parameter
`continuation` to a `Resolution` value.  The guard compares the `Resolution` against
the `Continuation` catalog and the CANCELLED sentinel (cross-class `==` is `False`);
when it fires, formatting the `ValueError` message evaluates
`continuation.identifier`, and `Resolution` has no attribute `identifier`, so an
`AttributeError` is raised instead. -/
def ErrorEntry.post_resolution_swapped (e : ErrorEntry) (resolutionParam : Continuation)
    (continuationParam : Resolution) : Except PyErr ErrorEntry :=
  let contV : PyVal := PyVal.res continuationParam
  if contV ∉ e.continuation_options.map PyVal.cont ∧ contV ≠ PyVal.cont CONTINUATION_CANCELLED then
    Except.error PyErr.attributeError
  else
    Except.ok { e with
      selected_continuation := some contV
      resolution := some (PyVal.cont resolutionParam)
      resolution_available := true }

/-- `ErrorEntry.is_resolution_available` (lines 500-514): returns the updated entry
(the auto-post mutates it in place) together with the returned Boolean. -/
def ErrorEntry.is_resolution_available (e : ErrorEntry) (now : Int) :
    Except PyErr (ErrorEntry × Bool) :=
  if e.resolution_available then
    Except.ok (e, true)
  else
    if e.automation_selection_timeout > 0 ∧ now - e.error_time > e.automation_selection_timeout then
      match e.post_resolution Resolution.empty e.default_option with
      | Except.error err => Except.error err
      | Except.ok e' => Except.ok (e', e'.resolution_available)
    else
      Except.ok (e, e.resolution_available)

/-- `ErrorEntry.get_selected_continuation` (lines 516-526).  The source's first guard
is `if not self.resolution_available:`, which tests the truthiness of the `Event`
object itself — always true — so that guard never fires and is omitted here. -/
def ErrorEntry.get_selected_continuation (e : ErrorEntry) : Except PyErr PyVal :=
  match e.selected_continuation with
  | none => Except.error (PyErr.runtimeError "Internal error: selected_continuation is None.")
  | some c =>
      match e.resolution with
      | none => Except.error (PyErr.runtimeError "Internal error: resolution object is None.")
      | some _ => Except.ok c

/-- The mutable state of the `ErrorRecoveryManager` singleton together with the heap of
`ErrorEntry` objects.  `heap` maps an object id to the entry record (first binding
wins), `errors` is the manager's `_errors` list of object ids, and `wakes` counts, per
registered listener, how many times `listener.set()` has been invoked. -/
structure St where
  heap : List (Nat × ErrorEntry)
  errors : List Nat
  wakes : List Nat
deriving DecidableEq, Repr

/-- Dereference an entry object id. -/
def St.get (s : St) (i : Nat) : ErrorEntry :=
  (s.heap.lookup i).getD default

/-- In-place mutation of the entry object `i`. -/
def St.set (s : St) (i : Nat) (e : ErrorEntry) : St :=
  { s with heap := s.heap.map (fun p => if p.1 = i then (i, e) else p) }

/-- `listener.set()` on every registered listener. -/
def St.wakeAll (s : St) : St :=
  { s with wakes := s.wakes.map (fun n => n + 1) }

/-- Application of the optional predicate of `clear_errors`/`get_errors`:
`filter(None, xs)` keeps the truthy elements, and `ErrorEntry` objects are always
truthy, so a missing predicate keeps everything. -/
def applyPred (p : Option (ErrorEntry → Bool)) (e : ErrorEntry) : Bool :=
  match p with
  | none => true
  | some q => q e

/-- One `next()` on the (lazy) `filter` iterator inside `clear_errors`: scan the
current list from position `i`, return the position and id of the first entry
satisfying the predicate. -/
def findFromList (s : St) (p : Option (ErrorEntry → Bool)) :
    List Nat → Nat → Option (Nat × Nat)
  | [], _ => none
  | x :: xs, j =>
      if applyPred p (s.get x) then some (j, x) else findFromList s p xs (j + 1)

/-- Resume the iterator of `clear_errors` at index `i` of the current `_errors` list. -/
def findFrom (s : St) (p : Option (ErrorEntry → Bool)) (i : Nat) : Option (Nat × Nat) :=
  findFromList s p (s.errors.drop i) i

/-- Python `list.remove(x)`: remove the first occurrence, or fail with `ValueError`
if the element is absent. -/
def removeFirst : List Nat → Nat → Option (List Nat)
  | [], _ => none
  | x :: xs, i =>
      if x = i then some xs else (removeFirst xs i).map (fun l => x :: l)

/-- `ErrorRecoveryManager.get_errors` (lines 77-92): a snapshot copy, optionally
filtered, of the registry (as object ids). -/
def getErrors (s : St) (p : Option (ErrorEntry → Bool)) : List Nat :=
  match p with
  | none => s.errors
  | some q => s.errors.filter (fun j => q (s.get j))

mutual

/-- `ErrorEntry.mark_resolved` (lines 536-547) on the entry object `i`: idempotence
guard on `_is_resolved`, forced `(empty resolution, CANCELLED)` post when no
resolution is available, then `self.clear()`, i.e. a manager-level `clear_errors`
keyed on the entry's `command_execution_uuid`. -/
def markResolved : Nat → St → Nat → Int → Except PyErr St
  | 0, _, _, _ => Except.error PyErr.outOfFuel
  | fuel + 1, s, i, now =>
      let e := s.get i
      if e._is_resolved then Except.ok s
      else
        let u := e.command_execution_uuid
        let s1 := s.set i { e with _is_resolved := true }
        match (s1.get i).is_resolution_available now with
        | Except.error err => Except.error err
        | Except.ok (e2, avail) =>
            let s2 := s1.set i e2
            if avail then
              clearErrors fuel s2 (some fun x => x.command_execution_uuid == u) now
            else
              match (s2.get i).post_resolution Resolution.empty CONTINUATION_CANCELLED with
              | Except.error err => Except.error err
              | Except.ok e3 =>
                  let s3 := s2.set i { e3 with resolution_available := true }
                  clearErrors fuel s3 (some fun x => x.command_execution_uuid == u) now

/-- `ErrorRecoveryManager.clear_errors` (lines 58-75).  The source's early-return
guard `if not to_be_removed: return` tests the truthiness of the `filter` object,
which is always truthy, so it never fires and is omitted here. -/
def clearErrors : Nat → St → Option (ErrorEntry → Bool) → Int → Except PyErr St
  | 0, _, _, _ => Except.error PyErr.outOfFuel
  | fuel + 1, s, p, now => clearLoop fuel s p 0 now

/-- The `for e in to_be_removed:` loop of `clear_errors`, resumed with the iterator
standing at index `i` of the live `_errors` list.  Each iteration marks the found
entry resolved (which may re-enter `clear_errors` and mutate the list) and then
performs `self._errors.remove(e)`, raising `ValueError` when the entry is no longer
present.  After the loop, every listener is woken once. -/
def clearLoop : Nat → St → Option (ErrorEntry → Bool) → Nat → Int → Except PyErr St
  | 0, _, _, _, _ => Except.error PyErr.outOfFuel
  | fuel + 1, s, p, i, now =>
      match findFrom s p i with
      | none => Except.ok s.wakeAll
      | some (j, id) =>
          match markResolved fuel s id now with
          | Except.error err => Except.error err
          | Except.ok s1 =>
              match removeFirst s1.errors id with
              | none => Except.error (PyErr.valueError "list.remove(x): x not in list")
              | some errs => clearLoop fuel { s1 with errors := errs } p (j + 1) now

end

/-- `ErrorRecoveryManager.push_error` (lines 99-134) of the (already allocated) entry
object `id`: snapshot the entries sharing the new entry's `command_execution_uuid`;
if one exists, remove it from the live list, mark it resolved (with a logged
warning), then append the new entry and wake every listener. -/
def pushError (fuel : Nat) (s : St) (id : Nat) (now : Int) : Except PyErr St :=
  let u := (s.get id).command_execution_uuid
  let old_err := s.errors.filter (fun j => (s.get j).command_execution_uuid == u)
  match old_err with
  | [] => Except.ok (St.wakeAll { s with errors := s.errors ++ [id] })
  | old :: _ =>
      match removeFirst s.errors old with
      | none => Except.error (PyErr.valueError "list.remove(x): x not in list")
      | some errs =>
          match markResolved fuel { s with errors := errs } old now with
          | Except.error err => Except.error err
          | Except.ok s2 => Except.ok (St.wakeAll { s2 with errors := s2.errors ++ [id] })

/-- `ErrorRecovery.close` (lines 271-273): `clear_errors(lambda e: e.creator_instance == self.id)`.
The lambda compares the `ErrorRecovery` object stored in `creator_instance` with the
scope's `id` string (`pyEqScopeStr`). -/
def ErrorRecovery.close (fuel : Nat) (s : St) (scope : ErrorRecovery) (now : Int) :
    Except PyErr St :=
  clearErrors fuel s (some fun e => pyEqScopeStr e.creator_instance scope.id) now

/-- Outcome of `ErrorEntry.wait_for_continuation` for the calling coroutine, under the
assumption that no concurrent task posts a resolution while it waits. -/
inductive WaitOutcome where
  | blocked
  | timedOutNone
  | returned (c : PyVal)
  | raisedError (e : Nat)
deriving DecidableEq, Repr

/-- The part of `wait_for_continuation` after the wait succeeds (lines 609-625):
fetch the selected continuation, apply the auto-resolve policy (explicit argument,
else the creator scope's `auto_resolve`), and re-raise the original error when the
continuation has `auto_raise` set. -/
def afterWait (fuel : Nat) (s : St) (i : Nat) (auto_resolve : Option Bool) (now : Int) :
    Except PyErr (St × WaitOutcome) :=
  match (s.get i).get_selected_continuation with
  | Except.error err => Except.error err
  | Except.ok c =>
      let doResolve :=
        match auto_resolve with
        | none => (s.get i).creator_instance.auto_resolve
        | some b => b
      match (if doResolve then markResolved fuel s i now else Except.ok s) with
      | Except.error err => Except.error err
      | Except.ok s1 =>
          match c with
          | PyVal.cont cc =>
              if cc.auto_raise then
                match markResolved fuel s1 i now with
                | Except.error err => Except.error err
                | Except.ok s2 => Except.ok (s2, WaitOutcome.raisedError (s2.get i).error)
              else Except.ok (s1, WaitOutcome.returned c)
          | PyVal.res _ => Except.error PyErr.attributeError

/-- `ErrorEntry.wait_for_continuation` (lines 578-625) on the entry object `i`.
With `timeout = None` the entry's own `automation_selection_timeout` is used; a zero
timeout awaits the `resolution_available` event with no deadline (suspending forever
when nobody sets it — outcome `blocked`); a nonzero timeout returns `None` (outcome
`timedOutNone`) when the event is not set by the deadline.  Note that this function
never calls `is_resolution_available`, so the lazy automation-timeout path cannot
trigger here. -/
def waitForContinuation (fuel : Nat) (s : St) (i : Nat) (timeout : Option Int)
    (auto_resolve : Option Bool) (now : Int) : Except PyErr (St × WaitOutcome) :=
  let t := timeout.getD (s.get i).automation_selection_timeout
  if t = 0 then
    if (s.get i).resolution_available then afterWait fuel s i auto_resolve now
    else Except.ok (s, WaitOutcome.blocked)
  else
    if (s.get i).resolution_available then afterWait fuel s i auto_resolve now
    else Except.ok (s, WaitOutcome.timedOutNone)

/-- `feature_ul.get_errors` (feature_ul.py lines 21-36): resolve an execution uuid to
the unique registered entry, failing with the defined execution errors of the
feature when none or several exist (`errors.pop()` returns the last element). -/
def featureGetErrors (s : St) (uuid : String) : Except PyErr Nat :=
  let errors := getErrors s (some fun e => e.command_execution_uuid == uuid)
  if errors.length = 0 then
    Except.error (PyErr.invalidCommandExecutionUUID
      ("No error found for CommandExecutionUUID: " ++ uuid))
  else if errors.length > 1 then
    Except.error (PyErr.exceptionOther
      ("Multiple errors found for CommandExecutionUUID: " ++ uuid))
  else
    Except.ok (errors.getLast?.getD 0)

/-- `feature_ul.get_continuation` (feature_ul.py lines 39-52): resolve a continuation
identifier within an entry's catalog. -/
def getContinuation (e : ErrorEntry) (continuation_uuid : String) :
    Except PyErr Continuation :=
  let cs := e.continuation_options.filter (fun o => o.identifier == continuation_uuid)
  if cs.length = 0 then
    Except.error (PyErr.unknownContinuationOption
      ("No continuation option found for identifier: " ++ continuation_uuid))
  else if cs.length > 1 then
    Except.error (PyErr.exceptionOther
      ("Multiple continuation options found for identifier: " ++ continuation_uuid))
  else
    Except.ok (cs.getLast?.getD default)

/-- `ErrorRecoveryService.ExecuteContinuationOption` (feature_ul.py lines 62-76):
look up the entry and the continuation, then execute
`my_error.post_resolution(continuation, Resolution(InputData))` — the arguments are
passed in swapped positions relative to `post_resolution(self, resolution, continuation)`,
which is modelled by `ErrorEntry.post_resolution_swapped`. -/
def ExecuteContinuationOption (s : St) (uuid contId inputData : String) :
    Except PyErr St :=
  match featureGetErrors s uuid with
  | Except.error err => Except.error err
  | Except.ok i =>
      match getContinuation (s.get i) contId with
      | Except.error err => Except.error err
      | Except.ok c =>
          match (s.get i).post_resolution_swapped c { input_data := some inputData } with
          | Except.error err => Except.error err
          | Except.ok e' => Except.ok (s.set i e')

/-- `ErrorRecoveryService.AbortErrorHandling` (feature_ul.py lines 78-89): look up the
entry, then execute `my_error.post_resolution(CONTINUATION_CANCELLED)`.  That call
passes a single positional argument to a method whose signature requires two
(`resolution` and `continuation`), so Python raises
`TypeError: post_resolution() missing 1 required positional argument` before the
method body runs. -/
def AbortErrorHandling (s : St) (uuid : String) : Except PyErr St :=
  match featureGetErrors s uuid with
  | Except.error err => Except.error err
  | Except.ok _ => Except.error PyErr.typeError

instance {ε α : Type} [DecidableEq ε] [DecidableEq α] : DecidableEq (Except ε α) :=
  fun a b =>
    match a, b with
    | Except.ok x, Except.ok y =>
        if h : x = y then isTrue (by rw [h]) else isFalse (by simp [h])
    | Except.error x, Except.error y =>
        if h : x = y then isTrue (by rw [h]) else isFalse (by simp [h])
    | Except.ok _, Except.error _ => isFalse (by simp)
    | Except.error _, Except.ok _ => isFalse (by simp)

/-- Continuation "A" of the spec scenarios. -/
def optA : Continuation := { description := "Continue", identifier := "opt-a" }

/-- Continuation "B" of the spec scenarios. -/
def optB : Continuation := { description := "Retry", identifier := "opt-b" }

/-- A continuation that belongs to no catalog below. -/
def optC : Continuation := { description := "Other", identifier := "opt-c" }

/-- A scope bound to execution "exec-1". -/
def scopeA : ErrorRecovery :=
  { auto_resolve := false, id := "scope-1", cmd_identifier := "cmd/Test",
    cmdexecution_uuid := "exec-1" }

/-- A live, unresolved entry for execution "exec-1" with catalog [A, B], default A,
timeout 0 (the §8 happy-path error E1). -/
def E1 : ErrorEntry :=
  { error_identifier := "Exception", command_identifier := "cmd/Test",
    command_execution_uuid := "exec-1", error_time := 0, error_message := "boom",
    error := 7, continuation_options := [optA, optB], default_option := optA,
    automation_selection_timeout := 0, creator_instance := scopeA }

/-- Registry holding exactly `E1` (object id 0) and one listener with no wakes yet. -/
def s1 : St := { heap := [(0, E1)], errors := [0], wakes := [0] }

/-- The §8 timeout-default error E2: execution "exec-2", catalog [A, B], default A,
automation timeout 1 second, raised at time 0. -/
def E2 : ErrorEntry :=
  { E1 with command_execution_uuid := "exec-2", automation_selection_timeout := 1 }

/-- Registry holding exactly `E2` (object id 0). -/
def s2 : St := { heap := [(0, E2)], errors := [0], wakes := [] }

/-- An entry whose `automation_selection_timeout` is the negative value -1. -/
def E9 : ErrorEntry := { E1 with automation_selection_timeout := -1 }

/-- Registry holding exactly `E9` (object id 0). -/
def s9 : St := { heap := [(0, E9)], errors := [0], wakes := [] }

/-- C1: the spec says `ExecuteContinuationOption(execution_id, continuation_id, input_data)`
posts `(Resolution(input_data), continuation)` onto the live entry, so that in the §8
happy-path instance a subsequent `wait_for_continuation` returns B.  The code instead
passes the arguments to `post_resolution` in swapped positions
(`post_resolution(continuation, Resolution(InputData))`), so the catalog-membership
guard sees a `Resolution` value, fails, and raises `AttributeError` while formatting
the error message (`Resolution` has no attribute `identifier`): the swapped call fails
for every entry and every continuation, no resolution is ever posted, and on the §8
instance the command errors out instead of selecting B. -/
theorem execute_continuation_swapped_arguments :
    (∀ (e : ErrorEntry) (c : Continuation) (r : Resolution),
        e.post_resolution_swapped c r = Except.error PyErr.attributeError) ∧
    ExecuteContinuationOption s1 "exec-1" "opt-b" "" = Except.error PyErr.attributeError ∧
    E1.resolution_available = false := by
  refine ⟨?_, by decide, by decide⟩
  intro e c r
  unfold ErrorEntry.post_resolution_swapped
  rw [if_pos]
  constructor
  · simp [List.mem_map]
  · simp

/-- C3: the spec says an entry with `automation_selection_timeout = T > 0` that receives
no explicit resolution auto-selects `(empty resolution, default_option)` once more than
T seconds have elapsed, so `wait_for_continuation(timeout=0)` called after T returns the
default option.  In the code the auto-selection lives only in `is_resolution_available`,
which `wait_for_continuation` never calls: with `timeout=0` it awaits the
`resolution_available` event directly, and on the §8 timeout-default instance (T = 1,
2 seconds elapsed, no resolution) that event is never set, so the call suspends forever
(`WaitOutcome.blocked`) instead of returning A — even though `is_resolution_available`
evaluated at the same instant would auto-post the default option. -/
theorem wait_for_continuation_ignores_automation_timeout :
    waitForContinuation 10 s2 0 (some 0) none 2 = Except.ok (s2, WaitOutcome.blocked) ∧
    E2.is_resolution_available 2 =
      Except.ok ({ E2 with
                    selected_continuation := some (PyVal.cont optA)
                    resolution := some (PyVal.res Resolution.empty)
                    resolution_available := true }, true) := by
  constructor
  · decide
  · decide

/-- C4: the spec says `AbortErrorHandling(execution_id)` posts the CANCELLED
continuation onto the matching entry (and fails with "unknown execution" if none).
The code calls `my_error.post_resolution(CONTINUATION_CANCELLED)` with a single
positional argument while the method requires two (`resolution`, `continuation`), so
for every live entry the call raises `TypeError` before anything is posted; only the
unknown-execution half of the claim holds. -/
theorem abort_error_handling_type_error :
    AbortErrorHandling s1 "exec-1" = Except.error PyErr.typeError ∧
    AbortErrorHandling s1 "exec-9" = Except.error (PyErr.invalidCommandExecutionUUID
      "No error found for CommandExecutionUUID: exec-9") ∧
    E1.selected_continuation = none := by
  refine ⟨by decide, by decide, by decide⟩

/-- C6: the spec says an entry created with `automation_selection_timeout = None`
succeeds and receives the manager's fallback default timeout (the callback installed
via `register_get_timeout_callback`).  In `ErrorEntry.create` the fallback branch
evaluates `err.__manager`, which Python mangles (inside `class ErrorEntry`) to
`err._ErrorEntry__manager`; `ErrorRecovery` instances only carry
`_ErrorRecovery__manager`, so creation raises `AttributeError` for every input
instead of succeeding. -/
theorem create_none_timeout_attribute_error :
    (∀ (exId : Nat) (exClass exMsg : String) (err : ErrorRecovery)
        (opts : List Continuation) (dflt : Continuation) (now mgrD : Int),
        ErrorEntry.create exId exClass exMsg err opts dflt none now mgrD =
          Except.error PyErr.attributeError) ∧
    ErrorRecovery.hasAttr "_ErrorEntry__manager" = false ∧
    ErrorRecovery.hasAttr "_ErrorRecovery__manager" = true := by
  refine ⟨?_, by decide, by decide⟩
  intro exId exClass exMsg err opts dflt now mgrD
  unfold ErrorEntry.create
  rw [if_neg]
  decide

/-- If no element of `l` satisfies the predicate, the iterator scan finds nothing. -/
theorem findFromList_eq_none (s : St) (p : Option (ErrorEntry → Bool)) :
    ∀ (l : List Nat) (j : Nat), (∀ x ∈ l, applyPred p (s.get x) = false) →
      findFromList s p l j = none := by
  intro l
  induction l with
  | nil => intro j _; rfl
  | cons x xs ih =>
      intro j h
      simp only [findFromList]
      rw [h x (by simp)]
      simp only [Bool.false_eq_true, if_false]
      exact ih (j + 1) (fun y hy => h y (by simp [hy]))

/-- The predicate of `ErrorRecovery.close` compares an `ErrorRecovery` object with a
string, which is always `False` in Python, so `clear_errors` finds no match, removes
nothing, and just wakes every listener. -/
theorem close_general (fuel : Nat) (s : St) (sc : ErrorRecovery) (now : Int) :
    ErrorRecovery.close (fuel + 2) s sc now = Except.ok s.wakeAll := by
  have hf : findFrom s (some fun e => pyEqScopeStr e.creator_instance sc.id) 0 = none := by
    unfold findFrom
    exact findFromList_eq_none s _ _ 0 (fun x _ => rfl)
  unfold ErrorRecovery.close
  show clearLoop (fuel + 1) s _ 0 now = _
  unfold clearLoop
  rw [hf]

/-- C5: the spec says `close()` clears any entry the scope is still responsible for, so
that afterwards `get_errors` contains no entry created through that scope.  The code's
predicate is `lambda e: e.creator_instance == self.id`, comparing the `ErrorRecovery`
object stored in `creator_instance` against the scope's `id` *string*; cross-type `==`
is always `False`, so for every registry state `close()` matches nothing, removes
nothing (it only wakes the listeners), and an outstanding entry created through the
scope stays in `get_errors` — shown concretely on `s1`, whose single entry was created
by `scopeA` and survives `scopeA`'s `close()` unresolved. -/
theorem close_leaves_entry_in_registry :
    (∀ (fuel : Nat) (s : St) (sc : ErrorRecovery) (now : Int),
        ErrorRecovery.close (fuel + 2) s sc now = Except.ok s.wakeAll) ∧
    ErrorRecovery.close 10 s1 scopeA 0 = Except.ok { s1 with wakes := [1] } ∧
    getErrors { s1 with wakes := [1] } none = [0] ∧
    (St.get { s1 with wakes := [1] } 0)._is_resolved = false ∧
    E1.creator_instance = scopeA := by
  exact ⟨close_general, by decide, by decide, by decide, by decide⟩

/-- C7: the spec says `clear_errors(predicate)` terminates normally, resolves and
removes every matching entry, and wakes each subscriber exactly once per call.  On a
registry holding a single unresolved entry (and the all-matching default predicate),
the code instead raises `ValueError("list.remove(x): x not in list")`: the loop body's
`mark_resolved()` re-enters `clear_errors` through `ErrorEntry.clear()`, which already
removes the entry (and wakes every listener once), so the outer loop's
`self._errors.remove(e)` fails. -/
theorem clear_errors_crashes_with_value_error :
    clearErrors 10 s1 none 0 =
      Except.error (PyErr.valueError "list.remove(x): x not in list") ∧
    E1._is_resolved = false ∧ s1.errors = [0] := by
  exact ⟨by decide, by decide, by decide⟩

/-- The record produced by a successful `post_resolution(resolution, continuation)`. -/
def postResolved (e : ErrorEntry) (r : Resolution) (c : Continuation) : ErrorEntry :=
  { e with
     selected_continuation := some (PyVal.cont c)
     resolution := some (PyVal.res r)
     resolution_available := true }

/-- `post_resolution` succeeds exactly on catalog members and the CANCELLED sentinel. -/
theorem post_resolution_ok (e : ErrorEntry) (r : Resolution) (c : Continuation)
    (h : c ∈ e.continuation_options ∨ c = CONTINUATION_CANCELLED) :
    e.post_resolution r c = Except.ok (postResolved e r c) := by
  unfold ErrorEntry.post_resolution postResolved
  rw [if_neg]
  intro hc
  rcases h with h | h
  · exact hc.1 h
  · exact hc.2 h

/-- C8: `post_resolution` with a continuation that is neither a member of the entry's
catalog nor the CANCELLED sentinel raises
`ValueError("Continuation ... not found in continuation options.")` before any field
assignment, so the entry value is left unchanged (the error is raised before
`selected_continuation`, `resolution`, or the availability event are touched), while
the CANCELLED sentinel itself is always accepted. -/
theorem post_resolution_rejects_unknown_continuation (e : ErrorEntry) (r : Resolution)
    (c : Continuation) (h1 : c ∉ e.continuation_options)
    (h2 : c ≠ CONTINUATION_CANCELLED) :
    e.post_resolution r c = Except.error (PyErr.valueError
      ("Continuation " ++ c.identifier ++ " not found in continuation options.")) ∧
    ∀ r' : Resolution, e.post_resolution r' CONTINUATION_CANCELLED =
      Except.ok (postResolved e r' CONTINUATION_CANCELLED) := by
  constructor
  · unfold ErrorEntry.post_resolution
    rw [if_pos ⟨h1, h2⟩]
  · intro r'
    exact post_resolution_ok e r' CONTINUATION_CANCELLED (Or.inr rfl)

/-- Witness for C8 at the concrete entry `E1` and the out-of-catalog continuation
`optC`. -/
theorem post_resolution_rejects_unknown_continuation_witness :
    E1.post_resolution { input_data := some "x" } optC = Except.error (PyErr.valueError
      ("Continuation " ++ optC.identifier ++ " not found in continuation options.")) ∧
    E1.post_resolution Resolution.empty CONTINUATION_CANCELLED =
      Except.ok (postResolved E1 Resolution.empty CONTINUATION_CANCELLED) := by
  have h := post_resolution_rejects_unknown_continuation E1 { input_data := some "x" }
    optC (by decide) (by decide)
  exact ⟨h.1, h.2 Resolution.empty⟩

/-- C10: `post_resolution` checks no Open-state precondition: after a resolution has
been posted, a second call with any catalog member (or CANCELLED) succeeds and
overwrites `selected_continuation` and `resolution` with the new values, leaving the
resolution-available event set. -/
theorem post_resolution_no_state_precondition (e : ErrorEntry) (r1 r2 : Resolution)
    (c1 c2 : Continuation)
    (h1 : c1 ∈ e.continuation_options ∨ c1 = CONTINUATION_CANCELLED)
    (h2 : c2 ∈ e.continuation_options ∨ c2 = CONTINUATION_CANCELLED) :
    e.post_resolution r1 c1 = Except.ok (postResolved e r1 c1) ∧
    (postResolved e r1 c1).resolution_available = true ∧
    (postResolved e r1 c1).post_resolution r2 c2 =
      Except.ok (postResolved (postResolved e r1 c1) r2 c2) ∧
    (postResolved (postResolved e r1 c1) r2 c2).selected_continuation
      = some (PyVal.cont c2) ∧
    (postResolved (postResolved e r1 c1) r2 c2).resolution = some (PyVal.res r2) ∧
    (postResolved (postResolved e r1 c1) r2 c2).resolution_available = true := by
  refine ⟨post_resolution_ok e r1 c1 h1, rfl, ?_, rfl, rfl, rfl⟩
  exact post_resolution_ok (postResolved e r1 c1) r2 c2 h2

/-- Witness for C10: post `optA` then overwrite with `optB` on `E1`. -/
theorem post_resolution_no_state_precondition_witness :
    E1.post_resolution { input_data := some "x1" } optA =
      Except.ok (postResolved E1 { input_data := some "x1" } optA) ∧
    (postResolved E1 { input_data := some "x1" } optA).resolution_available = true ∧
    (postResolved E1 { input_data := some "x1" } optA).post_resolution
        { input_data := some "x2" } optB =
      Except.ok (postResolved (postResolved E1 { input_data := some "x1" } optA)
        { input_data := some "x2" } optB) ∧
    (postResolved (postResolved E1 { input_data := some "x1" } optA)
        { input_data := some "x2" } optB).selected_continuation = some (PyVal.cont optB) ∧
    (postResolved (postResolved E1 { input_data := some "x1" } optA)
        { input_data := some "x2" } optB).resolution
      = some (PyVal.res { input_data := some "x2" }) ∧
    (postResolved (postResolved E1 { input_data := some "x1" } optA)
        { input_data := some "x2" } optB).resolution_available = true :=
  post_resolution_no_state_precondition E1 { input_data := some "x1" }
    { input_data := some "x2" } optA optB (Or.inl (by decide)) (Or.inl (by decide))

/-- C9 counterexample: the claim says a negative `automation_selection_timeout` or a
negative `wait_for_continuation` timeout fails fast with an invalid-input error.  At
the concrete inputs below, creation with timeout -5 succeeds (storing -5), a
`wait_for_continuation` with timeout -1 on an unresolved entry returns None via the
deadline path, and `is_resolution_available` simply never auto-selects — no
invalid-input error anywhere. -/
theorem negative_timeout_counterexample :
    ErrorEntry.create 7 "Exception" "boom" scopeA [optA, optB] optA (some (-5)) 0 3600 =
      Except.ok { E1 with automation_selection_timeout := -5 } ∧
    waitForContinuation 10 s9 0 (some (-1)) none 0 =
      Except.ok (s9, WaitOutcome.timedOutNone) ∧
    E9.is_resolution_available 100 = Except.ok (E9, false) := by
  exact ⟨by decide, by decide, by decide⟩

/-- C9 amended: negative timeouts are accepted without validation: `ErrorEntry.create`
stores a negative `automation_selection_timeout` unchanged, `is_resolution_available`
treats it like 0 (its auto-selection guard requires a strictly positive timeout, so it
never auto-selects), and `wait_for_continuation` with a negative timeout — explicit, or
inherited from the entry when the argument is `None` — takes the deadline branch and, on
an unresolved entry, returns None as for an already-expired deadline. -/
theorem negative_timeout_accepted (t : Int) (ht : t < 0) (exId : Nat)
    (exClass exMsg : String) (err : ErrorRecovery) (opts : List Continuation)
    (dflt : Continuation) (now mgrD : Int) (fuel : Nat) (s : St) (i : Nat)
    (now2 : Int) (auto : Option Bool)
    (hflag : (s.get i).resolution_available = false)
    (htime : (s.get i).automation_selection_timeout = t) :
    ErrorEntry.create exId exClass exMsg err opts dflt (some t) now mgrD =
      Except.ok (ErrorEntry.build exId exClass exMsg err opts dflt t now) ∧
    (s.get i).is_resolution_available now2 = Except.ok (s.get i, false) ∧
    waitForContinuation fuel s i (some t) auto now2 =
      Except.ok (s, WaitOutcome.timedOutNone) ∧
    waitForContinuation fuel s i none auto now2 =
      Except.ok (s, WaitOutcome.timedOutNone) := by
  have hne : t ≠ 0 := ht.ne
  refine ⟨rfl, ?_, ?_, ?_⟩
  · unfold ErrorEntry.is_resolution_available
    rw [htime, hflag]
    rw [if_neg (by simp)]
    rw [if_neg (fun hc => absurd hc.1 (by omega))]
  · unfold waitForContinuation
    simp only [Option.getD_some]
    rw [if_neg hne, hflag]
    rw [if_neg (by simp)]
  · unfold waitForContinuation
    simp only [Option.getD_none, htime]
    rw [if_neg hne, hflag]
    rw [if_neg (by simp)]

/-- Witness for C9's amended statement at `t = -1` on the concrete registry `s9`. -/
theorem negative_timeout_accepted_witness :
    ErrorEntry.create 7 "Exception" "boom" scopeA [optA, optB] optA (some (-1)) 0 3600 =
      Except.ok (ErrorEntry.build 7 "Exception" "boom" scopeA [optA, optB] optA (-1) 0) ∧
    (s9.get 0).is_resolution_available 5 = Except.ok (s9.get 0, false) ∧
    waitForContinuation 3 s9 0 (some (-1)) none 5 =
      Except.ok (s9, WaitOutcome.timedOutNone) ∧
    waitForContinuation 3 s9 0 none none 5 =
      Except.ok (s9, WaitOutcome.timedOutNone) :=
  negative_timeout_accepted (-1) (by decide) 7 "Exception" "boom" scopeA [optA, optB]
    optA 0 3600 3 s9 0 5 none (by decide) (by decide)

/-- Unfolding of `List.lookup` over a cons cell with decidable key equality. -/
theorem lookup_cons (j k : Nat) (b : ErrorEntry) (t : List (Nat × ErrorEntry)) :
    List.lookup j ((k, b) :: t) = if j = k then some b else List.lookup j t := by
  by_cases h : j = k
  · subst h
    simp [List.lookup]
  · have hb : (j == k) = false := beq_eq_false_iff_ne.mpr h
    simp [List.lookup, hb, h]

/-- An in-place update at key `i` does not change lookups at other keys. -/
theorem lookup_setList_ne (i j : Nat) (e : ErrorEntry) (l : List (Nat × ErrorEntry))
    (hne : j ≠ i) :
    List.lookup j (l.map (fun p => if p.1 = i then (i, e) else p)) = List.lookup j l := by
  induction l with
  | nil => rfl
  | cons a t ih =>
      obtain ⟨k, b⟩ := a
      simp only [List.map_cons]
      by_cases hk : k = i
      · rw [if_pos hk]
        rw [lookup_cons, lookup_cons, if_neg hne, if_neg (fun hjk => hne (hjk.trans hk)), ih]
      · rw [if_neg hk]
        rw [lookup_cons, lookup_cons, ih]

/-- An in-place update at a bound key `i` makes lookups at `i` return the new value. -/
theorem lookup_setList_self (i : Nat) (e : ErrorEntry) (l : List (Nat × ErrorEntry))
    (h : (List.lookup i l).isSome = true) :
    List.lookup i (l.map (fun p => if p.1 = i then (i, e) else p)) = some e := by
  induction l with
  | nil => simp [List.lookup] at h
  | cons a t ih =>
      obtain ⟨k, b⟩ := a
      simp only [List.map_cons]
      by_cases hk : k = i
      · rw [if_pos hk]
        rw [lookup_cons, if_pos rfl]
      · rw [if_neg hk]
        rw [lookup_cons, if_neg (fun hik => hk hik.symm)]
        apply ih
        rw [lookup_cons, if_neg (fun hik => hk hik.symm)] at h
        exact h

/-- An in-place update never changes which keys are bound. -/
theorem lookup_setList_isSome (i j : Nat) (e : ErrorEntry) (l : List (Nat × ErrorEntry)) :
    (List.lookup j (l.map (fun p => if p.1 = i then (i, e) else p))).isSome
      = (List.lookup j l).isSome := by
  induction l with
  | nil => rfl
  | cons a t ih =>
      obtain ⟨k, b⟩ := a
      simp only [List.map_cons]
      by_cases hk : k = i
      · rw [if_pos hk]
        rw [lookup_cons, lookup_cons]
        by_cases hj : j = k
        · rw [if_pos (hj.trans hk), if_pos hj]
          rfl
        · rw [if_neg (fun h2 => hj (h2.trans hk.symm)), if_neg hj]
          exact ih
      · rw [if_neg hk]
        rw [lookup_cons, lookup_cons]
        by_cases hj : j = k
        · rw [if_pos hj, if_pos hj]
        · rw [if_neg hj, if_neg hj]
          exact ih

/-- A bound key has a binding pair in the association list. -/
theorem lookup_isSome_mem (j : Nat) (l : List (Nat × ErrorEntry))
    (h : (List.lookup j l).isSome = true) : ∃ b, (j, b) ∈ l := by
  induction l with
  | nil => simp [List.lookup] at h
  | cons a t ih =>
      obtain ⟨k, b⟩ := a
      rw [lookup_cons] at h
      by_cases hj : j = k
      · exact ⟨b, by rw [hj]; exact List.mem_cons_self _ _⟩
      · rw [if_neg hj] at h
        obtain ⟨b2, hb2⟩ := ih h
        exact ⟨b2, List.mem_cons_of_mem _ hb2⟩

theorem St.get_set_self (s : St) (i : Nat) (e : ErrorEntry)
    (h : (List.lookup i s.heap).isSome = true) : (s.set i e).get i = e := by
  unfold St.get St.set
  simp only
  rw [lookup_setList_self i e s.heap h]
  rfl

theorem St.get_set_ne (s : St) (i j : Nat) (e : ErrorEntry) (h : j ≠ i) :
    (s.set i e).get j = s.get j := by
  unfold St.get St.set
  simp only
  rw [lookup_setList_ne i j e s.heap h]

theorem St.lookup_set_isSome (s : St) (i j : Nat) (e : ErrorEntry) :
    (List.lookup j (s.set i e).heap).isSome = (List.lookup j s.heap).isSome :=
  lookup_setList_isSome i j e s.heap

/-- `removeFirst` agrees with `List.erase` on present elements. -/
theorem removeFirst_of_mem (x : Nat) : ∀ (l : List Nat), x ∈ l →
    removeFirst l x = some (l.erase x) := by
  intro l
  induction l with
  | nil => intro h; cases h
  | cons a t ih =>
      intro h
      by_cases ha : a = x
      · subst ha
        simp [removeFirst, List.erase_cons_head]
      · have hx : x ∈ t := by
          rcases List.mem_cons.mp h with h1 | h1
          · exact absurd h1.symm ha
          · exact h1
        have hb : ¬ (a == x) = true := by simp [ha]
        simp only [removeFirst, if_neg ha, ih hx]
        rw [List.erase_cons_tail hb]
        rfl

/-- When no registry entry matches the predicate, `clear_errors` performs no removal
and just wakes every listener (given at least 2 units of fuel to unfold into the
loop). -/
theorem clearErrors_no_match (fuel : Nat) (s : St) (p : Option (ErrorEntry → Bool))
    (now : Int) (t : St)
    (h : ∀ x ∈ s.errors, applyPred p (s.get x) = false)
    (hok : clearErrors fuel s p now = Except.ok t) :
    t = s.wakeAll := by
  match fuel with
  | 0 => exact absurd hok (by simp [clearErrors])
  | 1 => exact absurd hok (by simp [clearErrors, clearLoop])
  | f + 2 =>
      have hf : findFrom s p 0 = none := by
        unfold findFrom
        exact findFromList_eq_none s p _ 0 (fun x hx => h x (by simpa using hx))
      rw [show clearErrors (f + 2) s p now = clearLoop (f + 1) s p 0 now from rfl] at hok
      unfold clearLoop at hok
      rw [hf] at hok
      exact (Except.ok.inj hok).symm

/-- Behaviour of `is_resolution_available` on a successful call, for an entry whose
default option belongs to its catalog: the returned entry keeps its identity fields
and resolved flag; when `avail` is true its event is set, and when `avail` is false
nothing changed at all. -/
theorem is_resolution_available_spec (e : ErrorEntry) (now : Int)
    (hwf : e.default_option ∈ e.continuation_options) (e2 : ErrorEntry) (avail : Bool)
    (h : e.is_resolution_available now = Except.ok (e2, avail)) :
    e2.command_execution_uuid = e.command_execution_uuid ∧
    e2._is_resolved = e._is_resolved ∧
    e2.continuation_options = e.continuation_options ∧
    (avail = true → e2.resolution_available = true) ∧
    (avail = false → e2 = e ∧ e.resolution_available = false) := by
  unfold ErrorEntry.is_resolution_available at h
  by_cases hav : e.resolution_available = true
  · rw [if_pos hav] at h
    have h2 := Except.ok.inj h
    rw [Prod.mk.injEq] at h2
    obtain ⟨he2, hav2⟩ := h2
    subst he2
    subst hav2
    exact ⟨rfl, rfl, rfl, fun _ => hav, fun hf => absurd hf (by decide)⟩
  · rw [if_neg hav] at h
    by_cases htc : e.automation_selection_timeout > 0 ∧
        now - e.error_time > e.automation_selection_timeout
    · rw [if_pos htc] at h
      rw [post_resolution_ok e Resolution.empty e.default_option (Or.inl hwf)] at h
      have h2 := Except.ok.inj h
      rw [Prod.mk.injEq] at h2
      obtain ⟨he2, hav2⟩ := h2
      subst he2
      subst hav2
      refine ⟨rfl, rfl, rfl, fun _ => rfl, fun hf => ?_⟩
      simp [postResolved] at hf
    · rw [if_neg htc] at h
      have h2 := Except.ok.inj h
      rw [Prod.mk.injEq] at h2
      obtain ⟨he2, hav2⟩ := h2
      subst he2
      subst hav2
      have hres : e.resolution_available = false := by
        revert hav
        cases e.resolution_available <;> simp
      exact ⟨rfl, rfl, rfl, fun ht => absurd ht (by simp [hres]), fun _ => ⟨rfl, hres⟩⟩

/-- Common tail of `markResolved` on a state `w` obtained from `s` by in-place updates
at `i` only: the re-entrant `clear_errors` keyed on the entry's uuid matches nothing
(no other registry member shares the uuid and `i` itself is not registered), so it
only wakes the listeners. -/
theorem markResolved_tail (f : Nat) (s w : St) (i : Nat) (now : Int) (t : St)
    (hnm : ∀ j ∈ s.errors,
      (s.get j).command_execution_uuid ≠ (s.get i).command_execution_uuid)
    (hiErr : i ∉ s.errors)
    (hwErr : w.errors = s.errors)
    (hwGet : ∀ j, j ≠ i → w.get j = s.get j)
    (hwLookup : ∀ j, (List.lookup j w.heap).isSome = (List.lookup j s.heap).isSome)
    (hwRes : (w.get i)._is_resolved = true)
    (hok : clearErrors f w
      (some fun x => x.command_execution_uuid == (s.get i).command_execution_uuid) now
      = Except.ok t) :
    t.errors = s.errors ∧ (∀ j, j ≠ i → t.get j = s.get j) ∧
    (∀ j, (List.lookup j t.heap).isSome = (List.lookup j s.heap).isSome) ∧
    (t.get i)._is_resolved = true := by
  have key : ∀ x ∈ w.errors,
      applyPred (some fun x => x.command_execution_uuid ==
        (s.get i).command_execution_uuid) (w.get x) = false := by
    intro x hx
    rw [hwErr] at hx
    have hxi : x ≠ i := fun h2 => hiErr (h2 ▸ hx)
    simp only [applyPred]
    rw [hwGet x hxi]
    exact beq_eq_false_iff_ne.mpr (hnm x hx)
  have ht := clearErrors_no_match f w _ now t key hok
  subst ht
  exact ⟨hwErr, fun j hj => hwGet j hj, hwLookup, hwRes⟩

set_option maxHeartbeats 1000000

/-- When no other registry member shares the uuid of entry `i` (and the entry's
default option is in its catalog), `mark_resolved` on `i` succeeds leaving the
registry list untouched, mutating only the entry object `i`, which ends up with
`_is_resolved = true`. -/
theorem markResolved_no_match (fuel : Nat) (s : St) (i : Nat) (now : Int) (t : St)
    (hsome : (List.lookup i s.heap).isSome = true)
    (hwf : (s.get i).default_option ∈ (s.get i).continuation_options)
    (hnm : ∀ j ∈ s.errors,
      (s.get j).command_execution_uuid ≠ (s.get i).command_execution_uuid)
    (hok : markResolved fuel s i now = Except.ok t) :
    t.errors = s.errors ∧
    (∀ j, j ≠ i → t.get j = s.get j) ∧
    (∀ j, (List.lookup j t.heap).isSome = (List.lookup j s.heap).isSome) ∧
    (t.get i)._is_resolved = true := by
  have hiErr : i ∉ s.errors := fun hi => hnm i hi rfl
  match fuel with
  | 0 => exact absurd hok (by simp [markResolved])
  | f + 1 =>
    simp only [markResolved] at hok
    by_cases hres : (s.get i)._is_resolved = true
    · rw [if_pos hres] at hok
      cases hok
      exact ⟨rfl, fun _ _ => rfl, fun _ => rfl, hres⟩
    · rw [if_neg hres] at hok
      rw [St.get_set_self s i _ hsome] at hok
      split at hok
      · exact absurd hok (by simp)
      · next e2 avail heq =>
        have hspec := is_resolution_available_spec
          { s.get i with _is_resolved := true } now hwf e2 avail heq
        have hlook1 : ∀ j, (List.lookup j
            (s.set i { s.get i with _is_resolved := true }).heap).isSome
            = (List.lookup j s.heap).isSome :=
          fun j => St.lookup_set_isSome s i j _
        have hsome1 : (List.lookup i
            (s.set i { s.get i with _is_resolved := true }).heap).isSome = true := by
          rw [hlook1 i]; exact hsome
        by_cases hav : avail = true
        · rw [if_pos hav] at hok
          refine markResolved_tail f s
            ((s.set i { s.get i with _is_resolved := true }).set i e2)
            i now t hnm hiErr rfl ?_ ?_ ?_ hok
          · intro j hj
            rw [St.get_set_ne _ i j _ hj, St.get_set_ne _ i j _ hj]
          · intro j
            rw [St.lookup_set_isSome, hlook1 j]
          · rw [St.get_set_self (s.set i { s.get i with _is_resolved := true }) i e2 hsome1]
            exact hspec.2.1
        · rw [if_neg hav] at hok
          have havf : avail = false := by
            revert hav; cases avail <;> simp
          split at hok
          · next err heq2 =>
            rw [St.get_set_self _ i e2 hsome1] at heq2
            rw [post_resolution_ok e2 Resolution.empty CONTINUATION_CANCELLED
              (Or.inr rfl)] at heq2
            exact absurd heq2 (by simp)
          · next e3 heq3 =>
            rw [St.get_set_self _ i e2 hsome1] at heq3
            rw [post_resolution_ok e2 Resolution.empty CONTINUATION_CANCELLED
              (Or.inr rfl)] at heq3
            have he3 : e3 = postResolved e2 Resolution.empty CONTINUATION_CANCELLED :=
              (Except.ok.inj heq3).symm
            subst he3
            refine markResolved_tail f s
              (((s.set i { s.get i with _is_resolved := true }).set i e2).set i
                { postResolved e2 Resolution.empty CONTINUATION_CANCELLED with
                    resolution_available := true })
              i now t hnm hiErr rfl ?_ ?_ ?_ hok
            · intro j hj
              rw [St.get_set_ne _ i j _ hj, St.get_set_ne _ i j _ hj,
                St.get_set_ne _ i j _ hj]
            · intro j
              rw [St.lookup_set_isSome, St.lookup_set_isSome, hlook1 j]
            · have hsome2 : (List.lookup i
                  ((s.set i { s.get i with _is_resolved := true }).set i e2).heap).isSome
                  = true := by
                rw [St.lookup_set_isSome, hlook1 i]; exact hsome
              rw [St.get_set_self
                ((s.set i { s.get i with _is_resolved := true }).set i e2) i _ hsome2]
              exact hspec.2.1

/-- The uuid of the registry member with object id `i`. -/
def uuidOf (s : St) (i : Nat) : String := (s.get i).command_execution_uuid

/-- The uuids of the live registry entries, in order. -/
def liveUuids (s : St) : List String := s.errors.map (fun i => uuidOf s i)

/-- The registry invariant maintained by `push_error` sequences: object ids are
distinct, at most one live entry exists per `command_execution_uuid`, every
registered id is heap-bound, and every registered entry's default option belongs to
its catalog. -/
def RegistryInv (s : St) : Prop :=
  s.errors.Nodup ∧ (liveUuids s).Nodup ∧
  (∀ i ∈ s.errors, (List.lookup i s.heap).isSome = true) ∧
  (∀ i ∈ s.errors, (s.get i).default_option ∈ (s.get i).continuation_options)

theorem getErrors_some (s : St) (q : ErrorEntry → Bool) :
    getErrors s (some q) = s.errors.filter (fun j => q (s.get j)) := rfl

theorem pushError_spec (s : St) (fuel id : Nat) (e : ErrorEntry) (now : Int) (s' : St)
    (hInv : RegistryInv s)
    (hfresh : ∀ p ∈ s.heap, p.1 ≠ id)
    (hwf : e.default_option ∈ e.continuation_options)
    (hok : pushError fuel { s with heap := (id, e) :: s.heap } id now = Except.ok s') :
    RegistryInv s' ∧
    (∀ old ∈ s.errors, uuidOf s old = e.command_execution_uuid →
        old ∉ s'.errors ∧ (s'.get old)._is_resolved = true) ∧
    getErrors s' (some fun x => x.command_execution_uuid == e.command_execution_uuid)
      = [id] := by
  obtain ⟨hNd, hNdU, hLook, hWf⟩ := hInv
  have hginsId : St.get { s with heap := (id, e) :: s.heap } id = e := by
    unfold St.get
    simp only
    rw [lookup_cons, if_pos rfl]
    rfl
  have hgins_ne : ∀ j, j ≠ id →
      St.get { s with heap := (id, e) :: s.heap } j = s.get j := by
    intro j hj
    unfold St.get
    simp only
    rw [lookup_cons, if_neg hj]
  have hidErr : id ∉ s.errors := by
    intro hid
    obtain ⟨b, hb⟩ := lookup_isSome_mem id s.heap (hLook id hid)
    exact hfresh (id, b) hb rfl
  simp only [pushError] at hok
  rw [hginsId] at hok
  have hfilter : List.filter
      (fun j => (St.get { s with heap := (id, e) :: s.heap } j).command_execution_uuid
        == e.command_execution_uuid) s.errors
      = List.filter
        (fun j => (s.get j).command_execution_uuid == e.command_execution_uuid)
        s.errors := by
    apply List.filter_congr
    intro x hx
    rw [hgins_ne x (fun h2 => hidErr (h2 ▸ hx))]
  rw [hfilter] at hok
  have hlookId : List.lookup id ((id, e) :: s.heap) = some e := by
    rw [lookup_cons, if_pos rfl]
  have hlookNe : ∀ j, j ≠ id →
      List.lookup j ((id, e) :: s.heap) = List.lookup j s.heap := by
    intro j hj
    rw [lookup_cons, if_neg hj]
  have hgetC_id : ∀ (st : St), st.heap = (id, e) :: s.heap → st.get id = e := by
    intro st hst
    unfold St.get
    rw [hst, hlookId]
    rfl
  have hgetC_ne : ∀ (st : St), st.heap = (id, e) :: s.heap →
      ∀ j, j ≠ id → st.get j = s.get j := by
    intro st hst j hj
    unfold St.get
    rw [hst, hlookNe j hj]
  have hinj := List.inj_on_of_nodup_map
    (show (s.errors.map fun i => uuidOf s i).Nodup from hNdU)
  cases hfil : List.filter
      (fun j => (s.get j).command_execution_uuid == e.command_execution_uuid)
      s.errors with
  | nil =>
    rw [hfil] at hok
    have hs' : s' = St.wakeAll
        { heap := (id, e) :: s.heap, errors := s.errors ++ [id], wakes := s.wakes } := by
      have hok2 : Except.ok (St.wakeAll
          { heap := (id, e) :: s.heap
            errors := s.errors ++ [id]
            wakes := s.wakes }) = Except.ok s' := hok
      exact (Except.ok.inj hok2).symm
    have hA : ∀ x ∈ s.errors,
        ((s.get x).command_execution_uuid == e.command_execution_uuid) = false := by
      intro x hx
      have h2 := List.filter_eq_nil_iff.mp hfil x hx
      simpa using h2
    have hAne : ∀ x ∈ s.errors,
        (s.get x).command_execution_uuid ≠ e.command_execution_uuid :=
      fun x hx => beq_eq_false_iff_ne.mp (hA x hx)
    have hsErr : s'.errors = s.errors ++ [id] := by rw [hs']; rfl
    have hsGet_ne : ∀ j, j ≠ id → s'.get j = s.get j := by
      intro j hj
      rw [hs']
      exact hgetC_ne _ rfl j hj
    have hsGet_id : s'.get id = e := by
      rw [hs']
      exact hgetC_id _ rfl
    have hsLook : ∀ j, List.lookup j s'.heap = List.lookup j ((id, e) :: s.heap) := by
      intro j
      rw [hs']
      rfl
    refine ⟨⟨?_, ?_, ?_, ?_⟩, ?_, ?_⟩
    · rw [hsErr]
      refine List.nodup_append.mpr ⟨hNd, List.nodup_singleton id, ?_⟩
      intro a ha hb
      exact hidErr ((List.mem_singleton.mp hb) ▸ ha)
    · unfold liveUuids uuidOf
      rw [hsErr, List.map_append]
      refine List.nodup_append.mpr ⟨?_, List.nodup_singleton _, ?_⟩
      · have hc : (s.errors.map fun i => (s'.get i).command_execution_uuid)
            = s.errors.map fun i => (s.get i).command_execution_uuid :=
          List.map_congr_left (fun x hx => by
            rw [hsGet_ne x (fun h2 => hidErr (h2 ▸ hx))])
        rw [hc]
        exact hNdU
      · intro a ha hb
        simp only [List.map_cons, List.map_nil, List.mem_singleton] at hb
        rw [hsGet_id] at hb
        rw [List.mem_map] at ha
        obtain ⟨x, hx, hax⟩ := ha
        rw [hsGet_ne x (fun h2 => hidErr (h2 ▸ hx))] at hax
        exact hAne x hx (by rw [hax, hb])
    · intro i hi
      rw [hsErr] at hi
      rw [hsLook i]
      rcases List.mem_append.mp hi with hi2 | hi2
      · rw [hlookNe i (fun h2 => hidErr (h2 ▸ hi2))]
        exact hLook i hi2
      · rw [List.mem_singleton.mp hi2, hlookId]
        rfl
    · intro i hi
      rw [hsErr] at hi
      rcases List.mem_append.mp hi with hi2 | hi2
      · rw [hsGet_ne i (fun h2 => hidErr (h2 ▸ hi2))]
        exact hWf i hi2
      · rw [List.mem_singleton.mp hi2, hsGet_id]
        exact hwf
    · intro old hold hu
      exact absurd hu (hAne old hold)
    · rw [getErrors_some, hsErr, List.filter_append]
      have hc : (s.errors.filter fun j =>
            (s'.get j).command_execution_uuid == e.command_execution_uuid)
          = s.errors.filter fun j =>
            (s.get j).command_execution_uuid == e.command_execution_uuid :=
        List.filter_congr (fun x hx => by
          rw [hsGet_ne x (fun h2 => hidErr (h2 ▸ hx))])
      have hbid : ((s'.get id).command_execution_uuid
          == e.command_execution_uuid) = true := by
        rw [hsGet_id]
        exact beq_self_eq_true _
      rw [hc, hfil]
      simp [List.filter_cons, hbid]
  | cons old rest =>
    rw [hfil] at hok
    have hOldIn : old ∈ List.filter
        (fun j => (s.get j).command_execution_uuid == e.command_execution_uuid)
        s.errors := by
      rw [hfil]
      exact List.mem_cons_self _ _
    have hOldMem : old ∈ s.errors := List.mem_of_mem_filter hOldIn
    have hOldB : ((s.get old).command_execution_uuid == e.command_execution_uuid) = true := by
      have h2 := List.of_mem_filter hOldIn
      simpa using h2
    have hOldU : (s.get old).command_execution_uuid = e.command_execution_uuid :=
      beq_iff_eq.mp hOldB
    have hOldId : old ≠ id := fun h2 => hidErr (h2 ▸ hOldMem)
    have hok2 : (match removeFirst s.errors old with
      | none => Except.error (PyErr.valueError "list.remove(x): x not in list")
      | some errs =>
        match markResolved fuel
            { heap := (id, e) :: s.heap, errors := errs, wakes := s.wakes }
            old now with
        | Except.error err => Except.error err
        | Except.ok s2 => Except.ok (St.wakeAll
            { heap := s2.heap
              errors := s2.errors ++ [id]
              wakes := s2.wakes })) = Except.ok s' := hok
    rw [removeFirst_of_mem old s.errors hOldMem] at hok2
    have hok3 : (match markResolved fuel
        { heap := (id, e) :: s.heap, errors := s.errors.erase old, wakes := s.wakes }
        old now with
      | Except.error err => Except.error err
      | Except.ok s2 => Except.ok (St.wakeAll
          { heap := s2.heap
            errors := s2.errors ++ [id]
            wakes := s2.wakes })) = Except.ok s' := hok2
    split at hok3
    · exact absurd hok3 (by simp)
    · next s2 heqM =>
      have hs' : s' = St.wakeAll
          { heap := s2.heap, errors := s2.errors ++ [id], wakes := s2.wakes } :=
        (Except.ok.inj hok3).symm
      have hgRem : St.get { heap := (id, e) :: s.heap, errors := s.errors.erase old, wakes := s.wakes } old = s.get old := hgetC_ne _ rfl old hOldId
      have hsomeO : (List.lookup old
          ({ heap := (id, e) :: s.heap, errors := s.errors.erase old, wakes := s.wakes } : St).heap).isSome = true := by
        show (List.lookup old ((id, e) :: s.heap)).isSome = true
        rw [hlookNe old hOldId]
        exact hLook old hOldMem
      have hwfO : (St.get { heap := (id, e) :: s.heap, errors := s.errors.erase old, wakes := s.wakes } old).default_option ∈ (St.get { heap := (id, e) :: s.heap, errors := s.errors.erase old, wakes := s.wakes } old).continuation_options := by
        rw [hgRem]
        exact hWf old hOldMem
      have hnmO : ∀ j ∈ ({ heap := (id, e) :: s.heap, errors := s.errors.erase old, wakes := s.wakes } : St).errors,
          (St.get { heap := (id, e) :: s.heap, errors := s.errors.erase old, wakes := s.wakes } j).command_execution_uuid
          ≠ (St.get { heap := (id, e) :: s.heap, errors := s.errors.erase old, wakes := s.wakes } old).command_execution_uuid := by
        intro j hj
        have hj2 : j ∈ s.errors.erase old := hj
        obtain ⟨hjo, hjs⟩ := (hNd.mem_erase_iff).mp hj2
        rw [hgetC_ne _ rfl j (fun h2 => hidErr (h2 ▸ hjs)), hgRem]
        intro hequ
        exact hjo (hinj hjs hOldMem hequ)
      obtain ⟨hE, hG, hL, hR⟩ := markResolved_no_match fuel
        { heap := (id, e) :: s.heap, errors := s.errors.erase old, wakes := s.wakes }
        old now s2 hsomeO hwfO hnmO heqM
      have hg2_ne : ∀ j ∈ s.errors.erase old, s2.get j = s.get j := by
        intro j hj
        obtain ⟨hjo, hjs⟩ := (hNd.mem_erase_iff).mp hj
        rw [hG j hjo]
        exact hgetC_ne _ rfl j (fun h2 => hidErr (h2 ▸ hjs))
      have hg2_id : s2.get id = e := by
        rw [hG id (fun h2 => hOldId h2.symm)]
        exact hgetC_id _ rfl
      have hErase_ne_uuid : ∀ j ∈ s.errors.erase old,
          (s.get j).command_execution_uuid ≠ e.command_execution_uuid := by
        intro j hj heq2
        obtain ⟨hjo, hjs⟩ := (hNd.mem_erase_iff).mp hj
        exact hjo (hinj hjs hOldMem (heq2.trans hOldU.symm))
      have hsErr : s'.errors = s.errors.erase old ++ [id] := by
        rw [hs']
        show s2.errors ++ [id] = _
        rw [hE]
      have hsGet : ∀ j, s'.get j = s2.get j := by
        intro j
        rw [hs']
        rfl
      have hsLook2 : ∀ j, List.lookup j s'.heap = List.lookup j s2.heap := by
        intro j
        rw [hs']
        rfl
      have hsub := (List.erase_sublist old s.errors).subset
      refine ⟨⟨?_, ?_, ?_, ?_⟩, ?_, ?_⟩
      · rw [hsErr]
        refine List.nodup_append.mpr ⟨hNd.erase old, List.nodup_singleton id, ?_⟩
        intro a ha hb
        exact hidErr ((List.mem_singleton.mp hb) ▸ (hsub ha))
      · unfold liveUuids uuidOf
        rw [hsErr, List.map_append]
        refine List.nodup_append.mpr ⟨?_, List.nodup_singleton _, ?_⟩
        · have hc : ((s.errors.erase old).map fun i => (s'.get i).command_execution_uuid)
              = (s.errors.erase old).map fun i => (s.get i).command_execution_uuid :=
            List.map_congr_left (fun x hx => by rw [hsGet, hg2_ne x hx])
          rw [hc]
          exact hNdU.sublist ((List.erase_sublist old s.errors).map _)
        · intro a ha hb
          simp only [List.map_cons, List.map_nil, List.mem_singleton] at hb
          rw [hsGet, hg2_id] at hb
          rw [List.mem_map] at ha
          obtain ⟨x, hx, hax⟩ := ha
          rw [hsGet, hg2_ne x hx] at hax
          exact hErase_ne_uuid x hx (by rw [hax, hb])
      · intro i hi
        rw [hsErr] at hi
        rw [hsLook2, hL i]
        rcases List.mem_append.mp hi with hi2 | hi2
        · show (List.lookup i ((id, e) :: s.heap)).isSome = true
          rw [hlookNe i (fun h2 => hidErr (h2 ▸ hsub hi2))]
          exact hLook i (hsub hi2)
        · rw [List.mem_singleton.mp hi2]
          show (List.lookup id ((id, e) :: s.heap)).isSome = true
          rw [hlookId]
          rfl
      · intro i hi
        rw [hsErr] at hi
        rcases List.mem_append.mp hi with hi2 | hi2
        · rw [hsGet, hg2_ne i hi2]
          exact hWf i (hsub hi2)
        · rw [List.mem_singleton.mp hi2, hsGet, hg2_id]
          exact hwf
      · intro old2 hold2 hu2
        have hoo : old2 = old := hinj hold2 hOldMem (hu2.trans hOldU.symm)
        subst hoo
        constructor
        · rw [hsErr]
          intro hmem
          rcases List.mem_append.mp hmem with hm | hm
          · exact ((hNd.mem_erase_iff).mp hm).1 rfl
          · exact hOldId (List.mem_singleton.mp hm)
        · rw [hsGet]
          exact hR
      · rw [getErrors_some, hsErr, List.filter_append]
        have hcf : ((s.errors.erase old).filter fun j =>
              (s'.get j).command_execution_uuid == e.command_execution_uuid) = [] := by
          apply List.filter_eq_nil_iff.mpr
          intro x hx
          rw [hsGet, hg2_ne x hx]
          simp [beq_eq_false_iff_ne.mpr (hErase_ne_uuid x hx)]
        have hbid : ((s'.get id).command_execution_uuid
            == e.command_execution_uuid) = true := by
          rw [hsGet, hg2_id]
          exact beq_self_eq_true _
        rw [hcf]
        simp [List.filter_cons, hbid]


/-- Registry states reachable from an empty registry by a sequence of `push_error`
calls, each pushing a freshly allocated entry object whose default option belongs to
its catalog (a data-model precondition of `ErrorEntry`). -/
inductive Reachable : St → Prop
  | init (heap : List (Nat × ErrorEntry)) (wakes : List Nat) :
      Reachable { heap := heap, errors := [], wakes := wakes }
  | push (s s' : St) (fuel id : Nat) (e : ErrorEntry) (now : Int)
      (hr : Reachable s)
      (hfresh : ∀ p ∈ s.heap, p.1 ≠ id)
      (hwf : e.default_option ∈ e.continuation_options)
      (hok : pushError fuel { s with heap := (id, e) :: s.heap } id now = Except.ok s') :
      Reachable s'

theorem reachable_inv (s : St) (h : Reachable s) : RegistryInv s := by
  induction h with
  | init heap wakes =>
      exact ⟨List.nodup_nil, List.nodup_nil, by simp, by simp⟩
  | push s s' fuel id e now hr hfresh hwf hok ih =>
      exact (pushError_spec s fuel id e now s' ih hfresh hwf hok).1

/-- C2: along every sequence of `push_error` calls, at most one live entry exists per
`command_execution_uuid` (the live uuid list has no duplicates), and pushing a new
entry for an execution id that already has a live entry removes the old entry from
the registry, forces it to the resolved state, and leaves `get_errors` filtered on
that id returning exactly the new entry. -/
theorem push_error_uniqueness (s : St) (h : Reachable s) :
    (liveUuids s).Nodup ∧
    ∀ (fuel id : Nat) (e : ErrorEntry) (now : Int) (s' : St),
      (∀ p ∈ s.heap, p.1 ≠ id) →
      e.default_option ∈ e.continuation_options →
      pushError fuel { s with heap := (id, e) :: s.heap } id now = Except.ok s' →
      (∀ old ∈ s.errors, uuidOf s old = e.command_execution_uuid →
          old ∉ s'.errors ∧ (s'.get old)._is_resolved = true) ∧
      getErrors s' (some fun x => x.command_execution_uuid == e.command_execution_uuid)
        = [id] := by
  have hInv := reachable_inv s h
  refine ⟨hInv.2.1, fun fuel id e now s' hfresh hwf hok => ?_⟩
  have hspec := pushError_spec s fuel id e now s' hInv hfresh hwf hok
  exact ⟨hspec.2.1, hspec.2.2⟩

/-- The scope of execution "exec-u", used by the C2 witness data. -/
def scopeU : ErrorRecovery := { scopeA with cmdexecution_uuid := "exec-u" }

/-- First error pushed for "exec-u". -/
def Ea : ErrorEntry :=
  { E1 with command_execution_uuid := "exec-u", creator_instance := scopeU }

/-- Second error pushed for "exec-u", superseding `Ea`. -/
def Eb : ErrorEntry := { Ea with error := 8, error_message := "boom2" }

/-- Registry after pushing `Ea` (object id 0) on an empty registry with one listener. -/
def sA : St := { heap := [(0, Ea)], errors := [0], wakes := [1] }

/-- Registry after additionally pushing `Eb` (object id 1): `Ea` is evicted and
forced to the cancelled/resolved state, and the listener saw two more wakes. -/
def sB : St :=
  { heap := [(1, Eb), (0, { Ea with
      selected_continuation := some (PyVal.cont CONTINUATION_CANCELLED)
      resolution := some (PyVal.res Resolution.empty)
      resolution_available := true
      _is_resolved := true })]
    errors := [1]
    wakes := [3] }

theorem reachable_sA : Reachable sA := by
  have h0 : Reachable { heap := ([] : List (Nat × ErrorEntry)), errors := [], wakes := [0] } :=
    Reachable.init [] [0]
  exact Reachable.push _ sA 5 0 Ea 0 h0 (by simp) (by decide) (by decide)

/-- Witness for C2 on the concrete two-push scenario of §8 ("supersede"). -/
theorem push_error_uniqueness_witness :
    (liveUuids sA).Nodup ∧ (0 ∉ sB.errors ∧ (sB.get 0)._is_resolved = true) ∧
    getErrors sB (some fun x => x.command_execution_uuid == Eb.command_execution_uuid)
      = [1] := by
  have h := push_error_uniqueness sA reachable_sA
  have h2 := h.2 10 1 Eb 0 sB (by decide) (by decide) (by decide)
  exact ⟨h.1, h2.1 0 (by decide) (by decide), h2.2⟩
